import Mathlib

/-!
Verification of the multi-cluster secret controller
(`pilot/pkg/serviceregistry/kube/secretcontroller`, file `part_001`).

The controller watches labeled secrets; each secret's data map carries
entries `clusterID -> kubeConfig bytes`.  Reconciliation keeps a registry
(`ClusterStore`) of `RemoteCluster` records, invokes caller callbacks on
add/update/remove, diffs credential bytes by SHA-256 fingerprint, and
exposes readiness through an atomic flag flipped by a sentinel queue key.

Shallow embedding conventions:
* `[]byte` credential blobs are `List Nat`.
* The SHA-256 digest (`sha256.Sum256`, an external library function) is an
  abstract digest function `Env.sha : List Nat -> Nat`; the code only ever
  compares digests for byte equality, which maps to `Nat` equality.
* `kube.Client` is an external opaque handle produced from kubeconfig
  bytes; we model it as a handle tagged with the bytes it was built from
  (`Client.cfg`), which is exactly the data flow of
  `BuildClientsFromConfig`.  Whether the non-empty bytes parse/validate
  (`clientcmd.Load`, `clientcmd.Validate`, `kube.NewClient`) is an
  external outcome, modeled by `Env.parse`.
* Caller callbacks (`addCallback`, `updateCallback`, `removeCallback`)
  have externally determined results, modeled by `Env.addErr`,
  `Env.updateErr`, `Env.removeErr`; each invocation is recorded as an
  `Event` (plus `Event.conflict` for the logged clusterID-reuse error).
* The informer's read-through cache (`GetIndexer().GetByKey`) is
  `Env.cache : String -> CacheResult`.
* The Go map `remoteClusters` is an association list with map semantics
  (`ClusterStore.get` / `.store` / `.delete`).
* The client-go work queue retry counter (`NumRequeues` /
  `AddRateLimited` / `Forget`) is a `Nat` threaded through
  `processNextItem`, following the documented workqueue contract:
  `AddRateLimited` increments the per-key counter, `Forget` resets it.
-/

namespace SecretController

/-- Constant `initialSyncSignal = "INIT"`: the reserved sentinel queue key. -/
def initialSyncSignal : String := "INIT"

/-- Constant `MultiClusterSecretLabel`: the label selector for relevant secrets. -/
def MultiClusterSecretLabel : String := "istio/multiCluster"

/-- Constant `maxRetries = 5`: retry bound checked by `processNextItem`. -/
def maxRetries : Nat := 5

/-- Opaque connection handle built from kubeconfig bytes (`kube.Client`);
modeled as tagged with the exact bytes it was built from. -/
structure Client where
  cfg : List Nat
deriving DecidableEq, Repr

/-- Struct `RemoteCluster`: one registry record. `kubeConfigSha` holds the
SHA-256 digest (abstract `Nat`) of the last-applied kubeconfig bytes. -/
structure RemoteCluster where
  secretName : String
  clients : Client
  kubeConfigSha : Nat
deriving DecidableEq, Repr

/-- The `ClusterStore.remoteClusters` map, as an association list with
unique keys maintained by `store`/`delete`. -/
abbrev ClusterStore := List (String × RemoteCluster)

/-- Map lookup `c.cs.Get(key)`. -/
def ClusterStore.get : ClusterStore → String → Option RemoteCluster
  | [], _ => none
  | (k, v) :: rest, key => if k = key then some v else ClusterStore.get rest key

/-- Map upsert `c.cs.Store(key, value)`: overwrite the existing binding or
append a new one. -/
def ClusterStore.store : ClusterStore → String → RemoteCluster → ClusterStore
  | [], key, value => [(key, value)]
  | (k, v) :: rest, key, value =>
      if k = key then (key, value) :: rest
      else (k, v) :: ClusterStore.store rest key value

/-- Map removal `c.cs.Delete(key)`. -/
def ClusterStore.delete : ClusterStore → String → ClusterStore
  | [], _ => []
  | (k, v) :: rest, key =>
      if k = key then ClusterStore.delete rest key
      else (k, v) :: ClusterStore.delete rest key

/-- Observable effects of one reconciliation pass: callback invocations
(`add` and `update` carry the handle the callback received), plus the
logged clusterID-reuse conflict. -/
inductive Event where
  | add (clusterID : String) (clients : Client)
  | update (clusterID : String) (clients : Client)
  | remove (clusterID : String)
  | conflict (clusterID : String)
deriving DecidableEq, Repr

/-- The cluster identifier an event is about. -/
def Event.clusterOf : Event → String
  | Event.add cid _ => cid
  | Event.update cid _ => cid
  | Event.remove cid => cid
  | Event.conflict cid => cid

/-- Result of the informer cache lookup `GetIndexer().GetByKey(secretName)`:
an error, absence, or the present secret's data map (entries
`clusterID -> kubeConfig bytes`, unique keys since it is a Go map). -/
inductive CacheResult where
  | err (msg : String)
  | absent
  | present (data : List (String × List Nat))
deriving DecidableEq, Repr

/-- External collaborators of the controller, fixed for a run: the digest
function, the parse/validate outcome for kubeconfig bytes, the caller
callbacks' error results, and the informer cache contents. -/
structure Env where
  sha : List Nat → Nat
  parse : List Nat → Bool
  addErr : Client → String → Option String
  updateErr : Client → String → Option String
  removeErr : String → Option String
  cache : String → CacheResult

/-- Function `BuildClientsFromConfig`: reject empty bytes, then attempt to
load/validate the kubeconfig and build a client from exactly those bytes. -/
def BuildClientsFromConfig (env : Env) (kubeConfig : List Nat) : Except String Client :=
  if kubeConfig.length = 0 then Except.error "kubeconfig is empty"
  else if env.parse kubeConfig then Except.ok ⟨kubeConfig⟩
  else Except.error "kubeconfig cannot be loaded or is not valid"

/-- Function `createRemoteCluster`: build clients from the bytes and record
the secret name and the digest of the same bytes. -/
def createRemoteCluster (env : Env) (kubeConfig : List Nat) (secretName : String) :
    Except String RemoteCluster :=
  match BuildClientsFromConfig env kubeConfig with
  | Except.error e => Except.error e
  | Except.ok clients => Except.ok ⟨secretName, clients, env.sha kubeConfig⟩

/-- Tail of one `addMemberCluster` loop iteration after the action/callback
choice: `createRemoteCluster` (failure skips the entry), `Store`, then the
chosen callback, whose error is logged only (`continue` ends the body). -/
def addEntryCommit (env : Env) (secretName : String) (cs : ClusterStore)
    (clusterID : String) (kubeConfig : List Nat) (isUpdate : Bool) :
    ClusterStore × List Event :=
  match createRemoteCluster env kubeConfig secretName with
  | Except.error _ => (cs, [])
  | Except.ok remoteCluster =>
      let cs' := cs.store clusterID remoteCluster
      let ev := if isUpdate then Event.update clusterID remoteCluster.clients
                else Event.add clusterID remoteCluster.clients
      let cbErr := if isUpdate then env.updateErr remoteCluster.clients clusterID
                   else env.addErr remoteCluster.clients clusterID
      match cbErr with
      | some _ => (cs', [ev])
      | none => (cs', [ev])

/-- One iteration of the `addMemberCluster` loop for the entry
`(clusterID, kubeConfig)`: on an existing record, a different owner is a
logged conflict (skip) and an identical digest is an unchanged skip;
otherwise commit with the update (resp. add) callback. -/
def addEntry (env : Env) (secretName : String) (cs : ClusterStore)
    (clusterID : String) (kubeConfig : List Nat) : ClusterStore × List Event :=
  match cs.get clusterID with
  | some prev =>
      if prev.secretName ≠ secretName then
        (cs, [Event.conflict clusterID])
      else if env.sha kubeConfig = prev.kubeConfigSha then
        (cs, [])
      else
        addEntryCommit env secretName cs clusterID kubeConfig true
  | none => addEntryCommit env secretName cs clusterID kubeConfig false

/-- Method `Controller.addMemberCluster`: iterate the secret's data map. -/
def addMemberCluster (env : Env) (cs : ClusterStore) (secretName : String) :
    List (String × List Nat) → ClusterStore × List Event
  | [] => (cs, [])
  | (clusterID, kubeConfig) :: rest =>
      let r := addEntry env secretName cs clusterID kubeConfig
      let r' := addMemberCluster env r.1 secretName rest
      (r'.1, r.2 ++ r'.2)

/-- Method `Controller.deleteMemberCluster`: scan the registry; for every
record owned by `secretName`, invoke the remove callback (error logged
only) and delete the record unconditionally. -/
def deleteMemberCluster (env : Env) (secretName : String) :
    ClusterStore → ClusterStore × List Event
  | [] => ([], [])
  | (clusterID, cluster) :: rest =>
      if cluster.secretName = secretName then
        let r := deleteMemberCluster env secretName rest
        match env.removeErr clusterID with
        | some _ => (r.1, Event.remove clusterID :: r.2)
        | none => (r.1, Event.remove clusterID :: r.2)
      else
        let r := deleteMemberCluster env secretName rest
        ((clusterID, cluster) :: r.1, r.2)

/-- Mutable state of a `Controller`: the registry and the readiness flag. -/
structure Controller where
  cs : ClusterStore
  initialSync : Bool
deriving DecidableEq, Repr

/-- A fresh controller: empty registry (`newClustersStore`), flag false. -/
def newController : Controller := ⟨[], false⟩

/-- Method `Controller.HasSynced`: non-blocking read of the flag. -/
def HasSynced (c : Controller) : Bool := c.initialSync

/-- Method `Controller.processItem`: the sentinel flips the flag and
succeeds; otherwise a cache error is returned, a present secret runs the
add-or-update pass, an absent one the removal pass (both return nil). -/
def processItem (env : Env) (c : Controller) (secretName : String) :
    Controller × List Event × Option String :=
  if secretName = initialSyncSignal then
    ({ c with initialSync := true }, [], none)
  else
    match env.cache secretName with
    | CacheResult.err m => (c, [], some ("error fetching object " ++ secretName ++ " error: " ++ m))
    | CacheResult.present data =>
        let r := addMemberCluster env c.cs secretName data
        ({ c with cs := r.1 }, r.2, none)
    | CacheResult.absent =>
        let r := deleteMemberCluster env secretName c.cs
        ({ c with cs := r.1 }, r.2, none)

/-- Disposition of a key after one `processNextItem` call. -/
inductive QueueDisposition where
  | forgot
  | requeued
  | gaveUp
deriving DecidableEq, Repr

/-- Method `Controller.processNextItem` for a dequeued key, with the
workqueue's per-key retry counter threaded explicitly: nil error forgets
the key (counter reset); otherwise a counter below `maxRetries` means
rate-limited requeue (counter incremented), else forget and surface the
error out of band. -/
def processNextItem (env : Env) (c : Controller) (key : String) (requeues : Nat) :
    Controller × List Event × QueueDisposition × Nat :=
  let r := processItem env c key
  match r.2.2 with
  | none => (r.1, r.2.1, QueueDisposition.forgot, 0)
  | some _ =>
      if requeues < maxRetries then (r.1, r.2.1, QueueDisposition.requeued, requeues + 1)
      else (r.1, r.2.1, QueueDisposition.gaveUp, 0)

/-- The worker loop's effect on controller state over a sequence of
dequeued keys. -/
def processKeys (env : Env) (c : Controller) : List String → Controller
  | [] => c
  | k :: ks => processKeys env (processItem env c k).1 ks

/-- Number of `processItem` attempts in one attempt chain of a key whose
processing always fails, starting from retry counter `n`: while the
counter is below `maxRetries` the key is requeued with the counter
incremented; at `maxRetries` the chain ends. -/
def failAttempts (n : Nat) : Nat :=
  if n < maxRetries then failAttempts (n + 1) + 1 else 1
termination_by maxRetries - n
decreasing_by omega

/-! ### Helper lemmas about the registry map -/

theorem get_store_self (cs : ClusterStore) (k : String) (v : RemoteCluster) :
    (cs.store k v).get k = some v := by
  induction cs with
  | nil => simp [ClusterStore.store, ClusterStore.get]
  | cons hd tl ih =>
      obtain ⟨k', v'⟩ := hd
      by_cases h : k' = k <;> simp [ClusterStore.store, ClusterStore.get, h, ih]

theorem get_store_ne (cs : ClusterStore) (k x : String) (v : RemoteCluster)
    (h : x ≠ k) : (cs.store k v).get x = cs.get x := by
  induction cs with
  | nil => simp [ClusterStore.store, ClusterStore.get, Ne.symm h]
  | cons hd tl ih =>
      obtain ⟨k', v'⟩ := hd
      by_cases h' : k' = k
      · subst h'
        simp [ClusterStore.store, ClusterStore.get, Ne.symm h]
      · simp [ClusterStore.store, ClusterStore.get, h']
        split <;> simp [ih]

theorem get_store_isSome (cs : ClusterStore) (k x : String) (v : RemoteCluster)
    (h : (cs.get x).isSome) : ((cs.store k v).get x).isSome := by
  by_cases hx : x = k
  · subst hx; simp [get_store_self]
  · rw [get_store_ne cs k x v hx]; exact h

/-! ### Case lemmas for one loop iteration of `addMemberCluster` -/

theorem addEntry_conflict_case (env : Env) (sn cid : String) (cs : ClusterStore)
    (kc : List Nat) (prev : RemoteCluster) (h : cs.get cid = some prev)
    (hown : prev.secretName ≠ sn) :
    addEntry env sn cs cid kc = (cs, [Event.conflict cid]) := by
  simp [addEntry, h, hown]

theorem addEntry_unchanged_case (env : Env) (sn cid : String) (cs : ClusterStore)
    (kc : List Nat) (prev : RemoteCluster) (h : cs.get cid = some prev)
    (hown : prev.secretName = sn) (hsha : env.sha kc = prev.kubeConfigSha) :
    addEntry env sn cs cid kc = (cs, []) := by
  simp [addEntry, h, hown, hsha]

theorem addEntryCommit_buildFail (env : Env) (sn cid : String) (cs : ClusterStore)
    (kc : List Nat) (b : Bool) (e : String)
    (h : BuildClientsFromConfig env kc = Except.error e) :
    addEntryCommit env sn cs cid kc b = (cs, []) := by
  simp [addEntryCommit, createRemoteCluster, h]

theorem addEntryCommit_ok (env : Env) (sn cid : String) (cs : ClusterStore)
    (kc : List Nat) (b : Bool) (cl : Client)
    (h : BuildClientsFromConfig env kc = Except.ok cl) :
    addEntryCommit env sn cs cid kc b =
      (cs.store cid ⟨sn, cl, env.sha kc⟩,
        [if b then Event.update cid cl else Event.add cid cl]) := by
  unfold addEntryCommit createRemoteCluster
  rw [h]
  cases b <;> simp <;> split <;> rfl

/-- Exhaustive description of one loop iteration: conflict skip, silent
skip (unchanged digest or failed client build), a committed add, or a
committed update. -/
theorem addEntry_cases (env : Env) (sn cid : String) (cs : ClusterStore) (kc : List Nat) :
    (∃ prev, cs.get cid = some prev ∧ prev.secretName ≠ sn ∧
        addEntry env sn cs cid kc = (cs, [Event.conflict cid])) ∨
    (addEntry env sn cs cid kc = (cs, [])) ∨
    (∃ cl, BuildClientsFromConfig env kc = Except.ok cl ∧ cs.get cid = none ∧
        addEntry env sn cs cid kc =
          (cs.store cid ⟨sn, cl, env.sha kc⟩, [Event.add cid cl])) ∨
    (∃ cl prev, BuildClientsFromConfig env kc = Except.ok cl ∧
        cs.get cid = some prev ∧ prev.secretName = sn ∧
        env.sha kc ≠ prev.kubeConfigSha ∧
        addEntry env sn cs cid kc =
          (cs.store cid ⟨sn, cl, env.sha kc⟩, [Event.update cid cl])) := by
  cases hg : cs.get cid with
  | none =>
      cases hb : BuildClientsFromConfig env kc with
      | error e =>
          refine Or.inr (Or.inl ?_)
          simp [addEntry, hg, addEntryCommit_buildFail env sn cid cs kc false e hb]
      | ok cl =>
          refine Or.inr (Or.inr (Or.inl ⟨cl, rfl, rfl, ?_⟩))
          simp [addEntry, hg, addEntryCommit_ok env sn cid cs kc false cl hb]
  | some prev =>
      by_cases hown : prev.secretName = sn
      · by_cases hsha : env.sha kc = prev.kubeConfigSha
        · exact Or.inr (Or.inl (addEntry_unchanged_case env sn cid cs kc prev hg hown hsha))
        · cases hb : BuildClientsFromConfig env kc with
          | error e =>
              refine Or.inr (Or.inl ?_)
              simp [addEntry, hg, hown, hsha,
                addEntryCommit_buildFail env sn cid cs kc true e hb]
          | ok cl =>
              refine Or.inr (Or.inr (Or.inr ⟨cl, prev, rfl, rfl, hown, hsha, ?_⟩))
              simp [addEntry, hg, hown, hsha,
                addEntryCommit_ok env sn cid cs kc true cl hb]
      · exact Or.inl ⟨prev, rfl, hown, addEntry_conflict_case env sn cid cs kc prev hg hown⟩

/-- One iteration never touches the binding of a different cluster id. -/
theorem addEntry_get_ne (env : Env) (sn cid x : String) (cs : ClusterStore)
    (kc : List Nat) (hx : x ≠ cid) :
    ((addEntry env sn cs cid kc).1).get x = cs.get x := by
  rcases addEntry_cases env sn cid cs kc with
    ⟨prev, _, _, he⟩ | he | ⟨cl, _, _, he⟩ | ⟨cl, prev, _, _, _, _, he⟩ <;>
    simp [he, get_store_ne cs cid x _ hx]

/-- Every event emitted by one iteration is about that iteration's id. -/
theorem addEntry_events_clusterOf (env : Env) (sn cid : String) (cs : ClusterStore)
    (kc : List Nat) (e : Event) (he : e ∈ (addEntry env sn cs cid kc).2) :
    e.clusterOf = cid := by
  rcases addEntry_cases env sn cid cs kc with
    ⟨prev, _, _, hc⟩ | hc | ⟨cl, _, _, hc⟩ | ⟨cl, prev, _, _, _, _, hc⟩ <;>
    rw [hc] at he <;> simp at he <;> simp [he, Event.clusterOf]

/-- A record present before one iteration is still present after it. -/
theorem addEntry_get_isSome (env : Env) (sn cid x : String) (cs : ClusterStore)
    (kc : List Nat) (h : (cs.get x).isSome) :
    (((addEntry env sn cs cid kc).1).get x).isSome := by
  rcases addEntry_cases env sn cid cs kc with
    ⟨prev, _, _, he⟩ | he | ⟨cl, _, _, he⟩ | ⟨cl, prev, _, _, _, _, he⟩ <;>
    simp [he, get_store_isSome, h]

/-- One iteration by secret `sn` leaves any record owned by another secret
exactly as it was. -/
theorem addEntry_preserves_other (env : Env) (sn cid x : String) (cs : ClusterStore)
    (kc : List Nat) (r : RemoteCluster) (hx : cs.get x = some r)
    (hown : r.secretName ≠ sn) :
    ((addEntry env sn cs cid kc).1).get x = some r := by
  by_cases hxc : x = cid
  · rw [hxc] at hx ⊢
    rcases addEntry_cases env sn cid cs kc with
      ⟨prev, hp, _, he⟩ | he | ⟨cl, _, hp, he⟩ | ⟨cl, prev, _, hp, hpo, _, he⟩
    · simp [he, hx]
    · simp [he, hx]
    · rw [hx] at hp; cases hp
    · rw [hx] at hp
      cases hp
      exact absurd hpo hown
  · rw [addEntry_get_ne env sn cid x cs kc hxc]
    exact hx

/-- An add event from one iteration means the id was absent and carries
the freshly built client. -/
theorem addEntry_add_mem (env : Env) (sn cid x : String) (cs : ClusterStore)
    (kc : List Nat) (cl : Client)
    (he : Event.add x cl ∈ (addEntry env sn cs cid kc).2) :
    x = cid ∧ cs.get cid = none ∧ BuildClientsFromConfig env kc = Except.ok cl := by
  rcases addEntry_cases env sn cid cs kc with
    ⟨prev, _, _, hc⟩ | hc | ⟨cl', hb, hn, hc⟩ | ⟨cl', prev, _, _, _, _, hc⟩ <;>
    rw [hc] at he <;> simp at he
  obtain ⟨hx, hcl⟩ := he
  subst hx; subst hcl
  exact ⟨rfl, hn, hb⟩

/-- An update event from one iteration means a record owned by the same
secret existed with a different digest. -/
theorem addEntry_update_mem (env : Env) (sn cid x : String) (cs : ClusterStore)
    (kc : List Nat) (cl : Client)
    (he : Event.update x cl ∈ (addEntry env sn cs cid kc).2) :
    x = cid ∧ (∃ prev, cs.get cid = some prev ∧ prev.secretName = sn ∧
      env.sha kc ≠ prev.kubeConfigSha) ∧
      BuildClientsFromConfig env kc = Except.ok cl := by
  rcases addEntry_cases env sn cid cs kc with
    ⟨prev, _, _, hc⟩ | hc | ⟨cl', hb, hn, hc⟩ | ⟨cl', prev, hb, hp, hpo, hps, hc⟩ <;>
    rw [hc] at he <;> simp at he
  obtain ⟨hx, hcl⟩ := he
  subst hx; subst hcl
  exact ⟨rfl, ⟨prev, hp, hpo, hps⟩, hb⟩

/-- The add-or-update pass never emits a remove event. -/
theorem addEntry_remove_not_mem (env : Env) (sn cid x : String) (cs : ClusterStore)
    (kc : List Nat) : Event.remove x ∉ (addEntry env sn cs cid kc).2 := by
  rcases addEntry_cases env sn cid cs kc with
    ⟨prev, _, _, hc⟩ | hc | ⟨cl', _, _, hc⟩ | ⟨cl', prev, _, _, _, _, hc⟩ <;>
    simp [hc]

/-! ### Lemmas about a whole add-or-update pass -/

/-- The pass distributes over appended entry lists. -/
theorem addMemberCluster_append (env : Env) (sn : String) (cs : ClusterStore)
    (l1 l2 : List (String × List Nat)) :
    addMemberCluster env cs sn (l1 ++ l2) =
      ((addMemberCluster env (addMemberCluster env cs sn l1).1 sn l2).1,
        (addMemberCluster env cs sn l1).2 ++
          (addMemberCluster env (addMemberCluster env cs sn l1).1 sn l2).2) := by
  induction l1 generalizing cs with
  | nil => simp [addMemberCluster]
  | cons hd tl ih =>
      obtain ⟨cid, kc⟩ := hd
      simp [addMemberCluster, ih]

/-- The pass does not touch the binding of an id absent from the data map. -/
theorem addMemberCluster_get_not_mem (env : Env) (sn x : String) (cs : ClusterStore)
    (data : List (String × List Nat)) (hx : x ∉ data.map Prod.fst) :
    ((addMemberCluster env cs sn data).1).get x = cs.get x := by
  induction data generalizing cs with
  | nil => simp [addMemberCluster]
  | cons hd tl ih =>
      obtain ⟨cid, kc⟩ := hd
      simp only [List.map_cons, List.mem_cons] at hx
      push_neg at hx
      simp only [addMemberCluster]
      rw [ih _ hx.2, addEntry_get_ne env sn cid x cs kc hx.1]

/-- Every event of the pass is about an id appearing in the data map. -/
theorem addMemberCluster_events_mem (env : Env) (sn : String) (cs : ClusterStore)
    (data : List (String × List Nat)) (e : Event)
    (he : e ∈ (addMemberCluster env cs sn data).2) :
    e.clusterOf ∈ data.map Prod.fst := by
  induction data generalizing cs with
  | nil => simp [addMemberCluster] at he
  | cons hd tl ih =>
      obtain ⟨cid, kc⟩ := hd
      simp only [addMemberCluster, List.mem_append] at he
      rcases he with he | he
      · simp [addEntry_events_clusterOf env sn cid cs kc e he]
      · simp [ih _ he]

/-- A record present before the pass is still present after it. -/
theorem addMemberCluster_get_isSome (env : Env) (sn x : String) (cs : ClusterStore)
    (data : List (String × List Nat)) (h : (cs.get x).isSome) :
    (((addMemberCluster env cs sn data).1).get x).isSome := by
  induction data generalizing cs with
  | nil => simpa [addMemberCluster] using h
  | cons hd tl ih =>
      obtain ⟨cid, kc⟩ := hd
      simp only [addMemberCluster]
      exact ih _ (addEntry_get_isSome env sn cid x cs kc h)

/-- A whole pass by secret `sn` leaves any record owned by another secret
exactly as it was. -/
theorem addMemberCluster_preserves_other (env : Env) (sn x : String)
    (cs : ClusterStore) (data : List (String × List Nat)) (r : RemoteCluster)
    (hx : cs.get x = some r) (hown : r.secretName ≠ sn) :
    ((addMemberCluster env cs sn data).1).get x = some r := by
  induction data generalizing cs with
  | nil => simpa [addMemberCluster] using hx
  | cons hd tl ih =>
      obtain ⟨cid, kc⟩ := hd
      simp only [addMemberCluster]
      exact ih _ (addEntry_preserves_other env sn cid x cs kc r hx hown)

/-- During a pass by secret `sn`, an id whose record is owned by another
secret receives no add and no update callback. -/
theorem addMemberCluster_no_callback_other (env : Env) (sn x : String)
    (cs : ClusterStore) (data : List (String × List Nat)) (r : RemoteCluster)
    (hx : cs.get x = some r) (hown : r.secretName ≠ sn) (cl : Client) :
    Event.add x cl ∉ (addMemberCluster env cs sn data).2 ∧
      Event.update x cl ∉ (addMemberCluster env cs sn data).2 := by
  induction data generalizing cs with
  | nil => simp [addMemberCluster]
  | cons hd tl ih =>
      obtain ⟨cid, kc⟩ := hd
      simp only [addMemberCluster, List.mem_append, not_or]
      have hx' := addEntry_preserves_other env sn cid x cs kc r hx hown
      refine ⟨⟨?_, (ih _ hx').1⟩, ⟨?_, (ih _ hx').2⟩⟩
      · intro he
        obtain ⟨hxc, hn, _⟩ := addEntry_add_mem env sn cid x cs kc cl he
        rw [hxc] at hx
        rw [hx] at hn
        cases hn
      · intro he
        obtain ⟨hxc, ⟨prev, hp, hpo, _⟩, _⟩ := addEntry_update_mem env sn cid x cs kc cl he
        rw [hxc] at hx
        rw [hx] at hp
        cases hp
        exact hown hpo

/-- A successful build on an absent id stores the new record and invokes
the add callback once with the built handle. -/
theorem addEntry_create_eq (env : Env) (sn cid : String) (cs : ClusterStore)
    (kc : List Nat) (cl : Client) (hn : cs.get cid = none)
    (hb : BuildClientsFromConfig env kc = Except.ok cl) :
    addEntry env sn cs cid kc =
      (cs.store cid ⟨sn, cl, env.sha kc⟩, [Event.add cid cl]) := by
  simp [addEntry, hn, addEntryCommit_ok env sn cid cs kc false cl hb]

/-- A failed build skips the entry entirely. -/
theorem addEntry_buildFail_eq (env : Env) (sn cid : String) (cs : ClusterStore)
    (kc : List Nat) (e : String)
    (hb : BuildClientsFromConfig env kc = Except.error e)
    (hne : ∀ prev, cs.get cid = some prev → prev.secretName = sn ∧
      env.sha kc ≠ prev.kubeConfigSha) :
    addEntry env sn cs cid kc = (cs, []) := by
  cases hg : cs.get cid with
  | none =>
      simp [addEntry, hg, addEntryCommit_buildFail env sn cid cs kc false e hb]
  | some prev =>
      obtain ⟨hown, hsha⟩ := hne prev hg
      simp [addEntry, hg, hown, hsha,
        addEntryCommit_buildFail env sn cid cs kc true e hb]

/-- A successful build on a same-owner id with a different digest
overwrites the record and invokes the update callback once. -/
theorem addEntry_update_eq (env : Env) (sn cid : String) (cs : ClusterStore)
    (kc : List Nat) (cl : Client) (prev : RemoteCluster)
    (hp : cs.get cid = some prev) (hown : prev.secretName = sn)
    (hsha : env.sha kc ≠ prev.kubeConfigSha)
    (hb : BuildClientsFromConfig env kc = Except.ok cl) :
    addEntry env sn cs cid kc =
      (cs.store cid ⟨sn, cl, env.sha kc⟩, [Event.update cid cl]) := by
  simp [addEntry, hp, hown, hsha, addEntryCommit_ok env sn cid cs kc true cl hb]

/-- After one iteration has run from state `s`, re-running the same entry
from any state that agrees on that id's binding changes nothing and emits
at most the conflict log. -/
theorem addEntry_stable (env : Env) (sn cid : String) (kc : List Nat)
    (s t : ClusterStore)
    (hts : t.get cid = ((addEntry env sn s cid kc).1).get cid) :
    (addEntry env sn t cid kc).1 = t ∧
      ∀ e ∈ (addEntry env sn t cid kc).2, e = Event.conflict cid := by
  cases hg : s.get cid with
  | none =>
      cases hb : BuildClientsFromConfig env kc with
      | error e =>
          have hs1 : addEntry env sn s cid kc = (s, []) := by
            simp [addEntry, hg, addEntryCommit_buildFail env sn cid s kc false e hb]
          rw [hs1] at hts
          rw [hg] at hts
          have h1 : addEntry env sn t cid kc = (t, []) := by
            simp [addEntry, hts, addEntryCommit_buildFail env sn cid t kc false e hb]
          simp [h1]
      | ok cl =>
          rw [addEntry_create_eq env sn cid s kc cl hg hb] at hts
          simp only [get_store_self] at hts
          have h1 : addEntry env sn t cid kc = (t, []) := by
            apply addEntry_unchanged_case env sn cid t kc _ hts rfl rfl
          simp [h1]
  | some prev =>
      by_cases hown : prev.secretName = sn
      · by_cases hsha : env.sha kc = prev.kubeConfigSha
        · rw [addEntry_unchanged_case env sn cid s kc prev hg hown hsha] at hts
          rw [hg] at hts
          have h1 : addEntry env sn t cid kc = (t, []) :=
            addEntry_unchanged_case env sn cid t kc prev hts hown hsha
          simp [h1]
        · cases hb : BuildClientsFromConfig env kc with
          | error e =>
              have hs1 : addEntry env sn s cid kc = (s, []) := by
                simp [addEntry, hg, hown, hsha,
                  addEntryCommit_buildFail env sn cid s kc true e hb]
              rw [hs1] at hts
              rw [hg] at hts
              have h1 : addEntry env sn t cid kc = (t, []) := by
                simp [addEntry, hts, hown, hsha,
                  addEntryCommit_buildFail env sn cid t kc true e hb]
              simp [h1]
          | ok cl =>
              rw [addEntry_update_eq env sn cid s kc cl prev hg hown hsha hb] at hts
              simp only [get_store_self] at hts
              have h1 : addEntry env sn t cid kc = (t, []) :=
                addEntry_unchanged_case env sn cid t kc _ hts rfl rfl
              simp [h1]
      · rw [addEntry_conflict_case env sn cid s kc prev hg hown] at hts
        rw [hg] at hts
        have h1 : addEntry env sn t cid kc = (t, [Event.conflict cid]) :=
          addEntry_conflict_case env sn cid t kc prev hts hown
        simp [h1]

/-- A pass whose every entry is a stable no-op leaves the registry
untouched and emits only conflict logs. -/
theorem addMemberCluster_noop (env : Env) (sn : String) (t : ClusterStore)
    (data : List (String × List Nat))
    (h : ∀ p ∈ data, (addEntry env sn t p.1 p.2).1 = t ∧
      ∀ e ∈ (addEntry env sn t p.1 p.2).2, e = Event.conflict p.1) :
    (addMemberCluster env t sn data).1 = t ∧
      ∀ e ∈ (addMemberCluster env t sn data).2, ∃ cid, e = Event.conflict cid := by
  induction data with
  | nil => simp [addMemberCluster]
  | cons hd tl ih =>
      obtain ⟨cid, kc⟩ := hd
      have hhd := h (cid, kc) (List.mem_cons_self _ _)
      have htl := ih fun p hp => h p (List.mem_cons_of_mem _ hp)
      simp only [addMemberCluster, hhd.1]
      refine ⟨htl.1, ?_⟩
      intro e he
      rw [List.mem_append] at he
      rcases he with he | he
      · exact ⟨cid, hhd.2 e he⟩
      · exact htl.2 e he

/-- Reconciling the same data map a second time (unique keys, as a Go map
has) performs no registry write and invokes no callback: only conflict
logs can recur. -/
theorem addMemberCluster_idem (env : Env) (sn : String) (cs : ClusterStore)
    (data : List (String × List Nat)) (hnd : (data.map Prod.fst).Nodup) :
    (addMemberCluster env (addMemberCluster env cs sn data).1 sn data).1 =
        (addMemberCluster env cs sn data).1 ∧
      ∀ e ∈ (addMemberCluster env (addMemberCluster env cs sn data).1 sn data).2,
        ∃ cid, e = Event.conflict cid := by
  induction data generalizing cs with
  | nil => simp [addMemberCluster]
  | cons hd tl ih =>
      obtain ⟨cid, kc⟩ := hd
      simp only [List.map_cons, List.nodup_cons, List.mem_map] at hnd
      obtain ⟨hcid, hndtl⟩ := hnd
      have hcid' : cid ∉ tl.map Prod.fst := by
        simp only [List.mem_map]
        intro ⟨p, hp, hpe⟩
        exact hcid ⟨p, hp, hpe⟩
      set s1 := (addEntry env sn cs cid kc).1 with hs1
      have hfix : ((addMemberCluster env s1 sn tl).1).get cid = s1.get cid :=
        addMemberCluster_get_not_mem env sn cid s1 tl hcid'
      have hstep := addEntry_stable env sn cid kc cs (addMemberCluster env s1 sn tl).1
        (by rw [hfix])
      have htl := ih s1 hndtl
      constructor
      · show (addMemberCluster env
            (addMemberCluster env (addEntry env sn cs cid kc).1 sn tl).1 sn
            ((cid, kc) :: tl)).1 = _
        simp only [addMemberCluster, ← hs1]
        rw [hstep.1]
        exact htl.1
      · intro e he
        simp only [addMemberCluster, ← hs1, hstep.1, List.mem_append] at he
        rcases he with he | he
        · exact ⟨cid, hstep.2 e he⟩
        · exact htl.2 e he

/-! ### Lemmas about the removal pass -/

/-- The removal pass deletes exactly the records owned by the secret
(regardless of remove-callback errors) and leaves every other record. -/
theorem deleteMemberCluster_spec (env : Env) (sn : String) (cs : ClusterStore) :
    (deleteMemberCluster env sn cs).1 =
        cs.filter (fun p => decide (p.2.secretName ≠ sn)) ∧
      (deleteMemberCluster env sn cs).2 =
        (cs.filter (fun p => decide (p.2.secretName = sn))).map
          (fun p => Event.remove p.1) := by
  induction cs with
  | nil => simp [deleteMemberCluster]
  | cons hd tl ih =>
      obtain ⟨cid, cluster⟩ := hd
      by_cases hown : cluster.secretName = sn
      · cases hr : env.removeErr cid <;>
          simp [deleteMemberCluster, hown, hr, ih.1, ih.2, List.filter_cons]
      · simp [deleteMemberCluster, hown, ih.1, ih.2, List.filter_cons]

/-! ### The fingerprint invariant -/

/-- Invariant: every record's stored digest is the digest of exactly the
bytes its client handle was built from. -/
def WellFingerprinted (env : Env) (cs : ClusterStore) : Prop :=
  ∀ p ∈ cs, p.2.kubeConfigSha = env.sha p.2.clients.cfg

/-- A successfully built client carries exactly the input bytes. -/
theorem BuildClientsFromConfig_ok_cfg (env : Env) (kc : List Nat) (cl : Client)
    (h : BuildClientsFromConfig env kc = Except.ok cl) : cl.cfg = kc := by
  unfold BuildClientsFromConfig at h
  split at h
  · cases h
  · split at h
    · cases h; rfl
    · cases h

/-- Membership after an upsert: the new binding or an old one. -/
theorem mem_store (cs : ClusterStore) (k : String) (v : RemoteCluster)
    (p : String × RemoteCluster) (hp : p ∈ cs.store k v) :
    p = (k, v) ∨ p ∈ cs := by
  induction cs with
  | nil => simpa [ClusterStore.store] using hp
  | cons hd tl ih =>
      obtain ⟨k', v'⟩ := hd
      by_cases h : k' = k
      · simp only [ClusterStore.store, h, if_pos] at hp
        rcases List.mem_cons.mp hp with h' | h'
        · exact Or.inl h'
        · exact Or.inr (List.mem_cons_of_mem _ h')
      · simp only [ClusterStore.store, h, if_neg, not_false_iff] at hp
        rcases List.mem_cons.mp hp with h' | h'
        · exact Or.inr (List.mem_cons.mpr (Or.inl h'))
        · rcases ih h' with h'' | h''
          · exact Or.inl h''
          · exact Or.inr (List.mem_cons_of_mem _ h'')

/-- One iteration preserves the fingerprint invariant. -/
theorem addEntry_wf (env : Env) (sn cid : String) (cs : ClusterStore)
    (kc : List Nat) (h : WellFingerprinted env cs) :
    WellFingerprinted env (addEntry env sn cs cid kc).1 := by
  rcases addEntry_cases env sn cid cs kc with
    ⟨prev, _, _, he⟩ | he | ⟨cl, hb, _, he⟩ | ⟨cl, prev, hb, _, _, _, he⟩
  · rw [he]; exact h
  · rw [he]; exact h
  · rw [he]
    intro p hp
    rcases mem_store cs cid _ p hp with h' | h'
    · rw [h']
      simp [BuildClientsFromConfig_ok_cfg env kc cl hb]
    · exact h p h'
  · rw [he]
    intro p hp
    rcases mem_store cs cid _ p hp with h' | h'
    · rw [h']
      simp [BuildClientsFromConfig_ok_cfg env kc cl hb]
    · exact h p h'

/-- A whole add-or-update pass preserves the fingerprint invariant. -/
theorem addMemberCluster_wf (env : Env) (sn : String) (cs : ClusterStore)
    (data : List (String × List Nat)) (h : WellFingerprinted env cs) :
    WellFingerprinted env (addMemberCluster env cs sn data).1 := by
  induction data generalizing cs with
  | nil => simpa [addMemberCluster] using h
  | cons hd tl ih =>
      obtain ⟨cid, kc⟩ := hd
      simp only [addMemberCluster]
      exact ih _ (addEntry_wf env sn cid cs kc h)

/-- The removal pass preserves the fingerprint invariant. -/
theorem deleteMemberCluster_wf (env : Env) (sn : String) (cs : ClusterStore)
    (h : WellFingerprinted env cs) :
    WellFingerprinted env (deleteMemberCluster env sn cs).1 := by
  intro p hp
  rw [(deleteMemberCluster_spec env sn cs).1] at hp
  exact h p (List.mem_of_mem_filter hp)

/-! ### Lemmas about `processItem` and the queue step -/

/-- A non-sentinel key never changes the readiness flag. -/
theorem processItem_flag_non_sentinel (env : Env) (c : Controller) (key : String)
    (hk : key ≠ initialSyncSignal) :
    ((processItem env c key).1).initialSync = c.initialSync := by
  unfold processItem
  rw [if_neg hk]
  cases env.cache key <;> simp

/-- The sentinel key sets the readiness flag. -/
theorem processItem_flag_sentinel (env : Env) (c : Controller) :
    ((processItem env c initialSyncSignal).1).initialSync = true := by
  simp [processItem]

/-- The error returned by `processItem`: none for the sentinel, and
otherwise exactly when the cache lookup fails. -/
theorem processItem_err_iff (env : Env) (c : Controller) (key : String) :
    (processItem env c key).2.2 ≠ none ↔
      key ≠ initialSyncSignal ∧ ∃ m, env.cache key = CacheResult.err m := by
  unfold processItem
  by_cases hk : key = initialSyncSignal
  · simp [hk]
  · rw [if_neg hk]
    cases hc : env.cache key <;> simp [hk, hc]

/-- Readiness after a worker run: the flag is set exactly when it was
already set or the sentinel occurs among the processed keys. -/
theorem processKeys_hasSynced (env : Env) (c : Controller) (keys : List String) :
    HasSynced (processKeys env c keys) = true ↔
      c.initialSync = true ∨ initialSyncSignal ∈ keys := by
  induction keys generalizing c with
  | nil => simp [processKeys, HasSynced]
  | cons k ks ih =>
      by_cases hk : k = initialSyncSignal
      · subst hk
        simp only [processKeys, ih, processItem_flag_sentinel, List.mem_cons]
        simp
      · simp only [processKeys, ih, processItem_flag_non_sentinel env c k hk,
          List.mem_cons]
        constructor
        · rintro (h | h)
          · exact Or.inl h
          · exact Or.inr (Or.inr h)
        · rintro (h | h | h)
          · exact Or.inl h
          · exact absurd h.symm hk
          · exact Or.inr h

/-- The worker loop distributes over appended key sequences. -/
theorem processKeys_append (env : Env) (c : Controller) (l1 l2 : List String) :
    processKeys env c (l1 ++ l2) = processKeys env (processKeys env c l1) l2 := by
  induction l1 generalizing c with
  | nil => simp [processKeys]
  | cons k ks ih => simp [processKeys, ih]

/-- A nil processing error forgets the key and resets its retry counter. -/
theorem processNextItem_forgot (env : Env) (c : Controller) (key : String)
    (n : Nat) (h : (processItem env c key).2.2 = none) :
    processNextItem env c key n =
      ((processItem env c key).1, (processItem env c key).2.1,
        QueueDisposition.forgot, 0) := by
  simp [processNextItem, h]

/-- A failed processing with the counter below the bound requeues the key
rate-limited and increments the counter. -/
theorem processNextItem_requeued (env : Env) (c : Controller) (key : String)
    (n : Nat) (m : String) (h : (processItem env c key).2.2 = some m)
    (hn : n < maxRetries) :
    processNextItem env c key n =
      ((processItem env c key).1, (processItem env c key).2.1,
        QueueDisposition.requeued, n + 1) := by
  simp [processNextItem, h, hn]

/-- A failed processing at the bound forgets the key (counter reset) and
surfaces the error out of band. -/
theorem processNextItem_gaveUp (env : Env) (c : Controller) (key : String)
    (n : Nat) (m : String) (h : (processItem env c key).2.2 = some m)
    (hn : ¬ n < maxRetries) :
    processNextItem env c key n =
      ((processItem env c key).1, (processItem env c key).2.1,
        QueueDisposition.gaveUp, 0) := by
  simp [processNextItem, h, hn]

/-- Unfolding equation of `failAttempts`. -/
theorem failAttempts_eq (n : Nat) :
    failAttempts n = if n < maxRetries then failAttempts (n + 1) + 1 else 1 := by
  rw [failAttempts]

/-- A chain that starts at counter zero makes `maxRetries + 1` attempts. -/
theorem failAttempts_zero : failAttempts 0 = maxRetries + 1 := by
  rw [failAttempts_eq, failAttempts_eq, failAttempts_eq, failAttempts_eq,
    failAttempts_eq, failAttempts_eq]
  simp [maxRetries]

/-- An id that already has a record when a pass starts never receives the
add callback during the pass. -/
theorem addMemberCluster_no_add_seen (env : Env) (sn x : String)
    (cs : ClusterStore) (data : List (String × List Nat)) (cl : Client)
    (h : (cs.get x).isSome) :
    Event.add x cl ∉ (addMemberCluster env cs sn data).2 := by
  induction data generalizing cs with
  | nil => simp [addMemberCluster]
  | cons hd tl ih =>
      obtain ⟨cid, kc⟩ := hd
      simp only [addMemberCluster, List.mem_append, not_or]
      refine ⟨?_, ih _ (addEntry_get_isSome env sn cid x cs kc h)⟩
      intro he
      obtain ⟨hxc, hn, _⟩ := addEntry_add_mem env sn cid x cs kc cl he
      rw [hxc, hn] at h
      simp at h

/-- The removal pass leaves the lookup result of any record owned by a
different secret unchanged. -/
theorem deleteMemberCluster_get_other (env : Env) (sn x : String)
    (cs : ClusterStore) (r : RemoteCluster) (hx : cs.get x = some r)
    (hown : r.secretName ≠ sn) :
    ((deleteMemberCluster env sn cs).1).get x = some r := by
  induction cs with
  | nil => simp [ClusterStore.get] at hx
  | cons hd tl ih =>
      obtain ⟨k, v⟩ := hd
      by_cases hk : k = x
      · subst hk
        simp only [ClusterStore.get, if_pos rfl] at hx
        cases hx
        simp [deleteMemberCluster, hown, ClusterStore.get]
      · simp only [ClusterStore.get, if_neg hk] at hx
        by_cases hvo : v.secretName = sn
        · cases hr : env.removeErr k <;>
            simp [deleteMemberCluster, hvo, hr, ih hx]
        · simp [deleteMemberCluster, hvo, ClusterStore.get, hk, ih hx]

/-- The add-or-update pass is entirely independent of the callback error
results: only the digest function and the parse outcome matter. -/
theorem addEntry_callback_indep (env env2 : Env) (hsha : env2.sha = env.sha)
    (hparse : env2.parse = env.parse) (sn : String) (cs : ClusterStore)
    (cid : String) (kc : List Nat) :
    addEntry env2 sn cs cid kc = addEntry env sn cs cid kc := by
  have hbuild : BuildClientsFromConfig env2 kc = BuildClientsFromConfig env kc := by
    unfold BuildClientsFromConfig
    rw [hparse]
  have hcrc : createRemoteCluster env2 kc sn = createRemoteCluster env kc sn := by
    unfold createRemoteCluster
    rw [hbuild, hsha]
  have hcommit : ∀ b, addEntryCommit env2 sn cs cid kc b =
      addEntryCommit env sn cs cid kc b := by
    intro b
    unfold addEntryCommit
    rw [hcrc]
    cases hc : createRemoteCluster env kc sn with
    | error e => rfl
    | ok rc =>
        simp only
        cases hb : (if b then env2.updateErr rc.clients cid
            else env2.addErr rc.clients cid) <;>
          cases hb2 : (if b then env.updateErr rc.clients cid
            else env.addErr rc.clients cid) <;> rfl
  unfold addEntry
  cases hg : cs.get cid with
  | none => exact hcommit false
  | some prev =>
      simp only [hsha, hcommit]

/-- `processItem` preserves the fingerprint invariant. -/
theorem processItem_wf (env : Env) (c : Controller) (key : String)
    (h : WellFingerprinted env c.cs) :
    WellFingerprinted env ((processItem env c key).1).cs := by
  unfold processItem
  by_cases hk : key = initialSyncSignal
  · simpa [hk] using h
  · rw [if_neg hk]
    cases hc : env.cache key with
    | err m => simpa using h
    | present data => simpa using addMemberCluster_wf env key c.cs data h
    | absent => simpa using deleteMemberCluster_wf env key c.cs h

/-- A whole worker run preserves the fingerprint invariant. -/
theorem processKeys_wf (env : Env) (c : Controller) (keys : List String)
    (h : WellFingerprinted env c.cs) :
    WellFingerprinted env (processKeys env c keys).cs := by
  induction keys generalizing c with
  | nil => simpa [processKeys] using h
  | cons k ks ih =>
      simp only [processKeys]
      exact ih _ (processItem_wf env c k h)

/-! ### Claim theorems -/

/-- Claim C1: when cluster id `X` is owned by secret `A`, processing a
present secret `B ≠ A` whose data contains `X` leaves the record for `X`
entirely unchanged, invokes neither the add nor the update callback for
`X`, logs a conflict, and continues with the secret's remaining entries
exactly as if the `X` entry were absent. -/
theorem conflict_rejected_without_mutation (env : Env) (cs : ClusterStore)
    (A B X : String) (b : List Nat) (r : RemoteCluster)
    (pre post : List (String × List Nat))
    (hr : cs.get X = some r) (hA : r.secretName = A) (hBA : B ≠ A) :
    ((addMemberCluster env cs B (pre ++ (X, b) :: post)).1).get X = some r ∧
      (∀ cl, Event.add X cl ∉ (addMemberCluster env cs B (pre ++ (X, b) :: post)).2 ∧
        Event.update X cl ∉ (addMemberCluster env cs B (pre ++ (X, b) :: post)).2) ∧
      Event.conflict X ∈ (addMemberCluster env cs B (pre ++ (X, b) :: post)).2 ∧
      (addMemberCluster env cs B (pre ++ (X, b) :: post)).1 =
        (addMemberCluster env cs B (pre ++ post)).1 ∧
      (addMemberCluster env cs B (pre ++ (X, b) :: post)).2 =
        (addMemberCluster env cs B pre).2 ++ Event.conflict X ::
          (addMemberCluster env (addMemberCluster env cs B pre).1 B post).2 ∧
      (addMemberCluster env cs B (pre ++ post)).2 =
        (addMemberCluster env cs B pre).2 ++
          (addMemberCluster env (addMemberCluster env cs B pre).1 B post).2 := by
  have hown : r.secretName ≠ B := by
    rw [hA]
    exact Ne.symm hBA
  have hmid : ((addMemberCluster env cs B pre).1).get X = some r :=
    addMemberCluster_preserves_other env B X cs pre r hr hown
  have hstep : addEntry env B (addMemberCluster env cs B pre).1 X b =
      ((addMemberCluster env cs B pre).1, [Event.conflict X]) :=
    addEntry_conflict_case env B X _ b r hmid hown
  have hfull : addMemberCluster env cs B (pre ++ (X, b) :: post) =
      ((addMemberCluster env (addMemberCluster env cs B pre).1 B post).1,
        (addMemberCluster env cs B pre).2 ++ Event.conflict X ::
          (addMemberCluster env (addMemberCluster env cs B pre).1 B post).2) := by
    rw [addMemberCluster_append]
    simp only [addMemberCluster, hstep, List.singleton_append]
  have hdrop : addMemberCluster env cs B (pre ++ post) =
      ((addMemberCluster env (addMemberCluster env cs B pre).1 B post).1,
        (addMemberCluster env cs B pre).2 ++
          (addMemberCluster env (addMemberCluster env cs B pre).1 B post).2) := by
    rw [addMemberCluster_append]
  refine ⟨?_, ?_, ?_, ?_, ?_, ?_⟩
  · exact addMemberCluster_preserves_other env B X cs _ r hr hown
  · intro cl
    exact addMemberCluster_no_callback_other env B X cs _ r hr hown cl
  · rw [hfull]
    simp
  · rw [hfull, hdrop]
  · rw [hfull]
  · rw [hdrop]

/-- Claim C2: the readiness flag starts false, is never changed by a
non-sentinel key, is set by processing the sentinel, and — for a run that
processes the pre-existing keys before the sentinel — reads false after
any prefix of the pre-sentinel keys and true permanently once the
sentinel has been processed. -/
theorem hasSynced_sentinel_ordering (env : Env) (init : Controller)
    (pre rest : List String) (h0 : init.initialSync = false)
    (hpre : initialSyncSignal ∉ pre) :
    (∀ c k, k ≠ initialSyncSignal →
      ((processItem env c k).1).initialSync = c.initialSync) ∧
      (∀ c, ((processItem env c initialSyncSignal).1).initialSync = true) ∧
      (∀ p q, pre = p ++ q → HasSynced (processKeys env init p) = false) ∧
      HasSynced (processKeys env init (pre ++ initialSyncSignal :: rest)) = true ∧
      (∀ c more, HasSynced c = true → HasSynced (processKeys env c more) = true) := by
  refine ⟨fun c k hk => processItem_flag_non_sentinel env c k hk,
    fun c => processItem_flag_sentinel env c, ?_, ?_, ?_⟩
  · intro p q hpq
    have hp : initialSyncSignal ∉ p := fun hmem =>
      hpre (hpq ▸ List.mem_append.mpr (Or.inl hmem))
    rw [← Bool.not_eq_true]
    rw [processKeys_hasSynced]
    rintro (h | h)
    · rw [h0] at h
      cases h
    · exact hp h
  · rw [processKeys_hasSynced]
    exact Or.inr (List.mem_append.mpr (Or.inr (List.mem_cons_self _ _)))
  · intro c more hc
    rw [processKeys_hasSynced]
    exact Or.inl hc

/-- Claim C3: an entry whose record is owned by the same secret with an
identical digest is skipped with no registry write and no callback; hence
a second pass over the same data map (unique keys) leaves the registry
unchanged and emits at most conflict logs — no callback invocations. -/
theorem unchanged_secret_idempotent (env : Env) (sn : String) (cs : ClusterStore)
    (data : List (String × List Nat)) (cid : String) (kc : List Nat)
    (prev : RemoteCluster) (hnd : (data.map Prod.fst).Nodup)
    (hp : cs.get cid = some prev) (hown : prev.secretName = sn)
    (hsha : env.sha kc = prev.kubeConfigSha) :
    addEntry env sn cs cid kc = (cs, []) ∧
      (addMemberCluster env (addMemberCluster env cs sn data).1 sn data).1 =
        (addMemberCluster env cs sn data).1 ∧
      ∀ e ∈ (addMemberCluster env (addMemberCluster env cs sn data).1 sn data).2,
        ∃ x, e = Event.conflict x := by
  refine ⟨addEntry_unchanged_case env sn cid cs kc prev hp hown hsha, ?_, ?_⟩
  · exact (addMemberCluster_idem env sn cs data hnd).1
  · exact (addMemberCluster_idem env sn cs data hnd).2

/-- Claim C4: a key that always fails is attempted `maxRetries + 1 = 6`
times in one chain: each failure with fewer than `maxRetries` recorded
requeues re-adds it rate-limited with the counter incremented, and the
failure at `maxRetries` forgets the key — counter reset to zero — and
surfaces the error, so a fresh notification starts from zero. -/
theorem always_failing_key_retry_bound (env : Env) (key m : String)
    (hk : key ≠ initialSyncSignal) (hc : env.cache key = CacheResult.err m) :
    (∀ c n, n < maxRetries →
      processNextItem env c key n =
        (c, [], QueueDisposition.requeued, n + 1)) ∧
      (∀ c, processNextItem env c key maxRetries =
        (c, [], QueueDisposition.gaveUp, 0)) ∧
      failAttempts 0 = maxRetries + 1 ∧ maxRetries + 1 = 6 := by
  have herr : ∀ c : Controller, processItem env c key =
      (c, [], some ("error fetching object " ++ key ++ " error: " ++ m)) := by
    intro c
    simp [processItem, hk, hc]
  refine ⟨?_, ?_, failAttempts_zero, rfl⟩
  · intro c n hn
    rw [processNextItem_requeued env c key n _ (by rw [herr]) hn, herr]
  · intro c
    rw [processNextItem_gaveUp env c key maxRetries _ (by rw [herr])
      (lt_irrefl maxRetries), herr]

/-- Claim C5: processing a key absent from the cache runs the removal
pass: exactly one remove callback per record owned by that key, in
registry order; every such record is deleted even though the remove
callback may return an error; records owned by other secrets keep their
bindings. -/
theorem absent_secret_removal_scan (env : Env) (sn : String) (cs : ClusterStore)
    (c : Controller) (key : String) (hk : key ≠ initialSyncSignal)
    (hc : env.cache key = CacheResult.absent) :
    (deleteMemberCluster env sn cs).2 =
        (cs.filter (fun p => decide (p.2.secretName = sn))).map
          (fun p => Event.remove p.1) ∧
      (deleteMemberCluster env sn cs).1 =
        cs.filter (fun p => decide (¬ p.2.secretName = sn)) ∧
      (∀ x r, cs.get x = some r → r.secretName ≠ sn →
        ((deleteMemberCluster env sn cs).1).get x = some r) ∧
      processItem env c key =
        ({ c with cs := (deleteMemberCluster env key c.cs).1 },
          (deleteMemberCluster env key c.cs).2, none) := by
  refine ⟨(deleteMemberCluster_spec env sn cs).2, ?_, ?_, ?_⟩
  · have h := (deleteMemberCluster_spec env sn cs).1
    simpa using h
  · intro x r hx hown
    exact deleteMemberCluster_get_other env sn x cs r hx hown
  · simp [processItem, hk, hc]

/-- Claim C6: with a successfully built client, a first-seen id stores a
record and fires the add callback with the built handle; a same-owner id
with a changed digest overwrites the record and fires the update
callback; and an id with any pre-existing record never receives the add
callback during a pass. -/
theorem add_update_distinction (env : Env) (sn cid : String) (cs : ClusterStore)
    (kc : List Nat) (cl : Client)
    (hb : BuildClientsFromConfig env kc = Except.ok cl) :
    (cs.get cid = none →
      addEntry env sn cs cid kc =
        (cs.store cid ⟨sn, cl, env.sha kc⟩, [Event.add cid cl])) ∧
      (∀ prev, cs.get cid = some prev → prev.secretName = sn →
        env.sha kc ≠ prev.kubeConfigSha →
        addEntry env sn cs cid kc =
          (cs.store cid ⟨sn, cl, env.sha kc⟩, [Event.update cid cl])) ∧
      (∀ data r cl2, cs.get cid = some r →
        Event.add cid cl2 ∉ (addMemberCluster env cs sn data).2) := by
  refine ⟨?_, ?_, ?_⟩
  · intro hn
    exact addEntry_create_eq env sn cid cs kc cl hn hb
  · intro prev hp hown hsha
    exact addEntry_update_eq env sn cid cs kc cl prev hp hown hsha hb
  · intro data r cl2 hp
    exact addMemberCluster_no_add_seen env sn cid cs data cl2 (by simp [hp])

/-- Claim C7: callback errors are swallowed: the whole pass is
independent of the callback error results; the record committed before
an erroring add or update callback stays with the new fingerprint and
the callback runs exactly once; `processItem` returns an error only for
a failing cache lookup on a non-sentinel key; and a nil error reports
the key successful — forgotten with its retry counter reset. -/
theorem callback_error_swallowed (env env2 : Env) (hsha : env2.sha = env.sha)
    (hparse : env2.parse = env.parse) :
    (∀ sn cs cid kc, addEntry env2 sn cs cid kc = addEntry env sn cs cid kc) ∧
      (∀ sn cs cid kc cl, cs.get cid = none →
        BuildClientsFromConfig env kc = Except.ok cl →
        ((addEntry env sn cs cid kc).1).get cid = some ⟨sn, cl, env.sha kc⟩ ∧
          (addEntry env sn cs cid kc).2 = [Event.add cid cl]) ∧
      (∀ sn cs cid kc cl prev, cs.get cid = some prev → prev.secretName = sn →
        env.sha kc ≠ prev.kubeConfigSha →
        BuildClientsFromConfig env kc = Except.ok cl →
        ((addEntry env sn cs cid kc).1).get cid = some ⟨sn, cl, env.sha kc⟩ ∧
          (addEntry env sn cs cid kc).2 = [Event.update cid cl]) ∧
      (∀ c key, (processItem env c key).2.2 ≠ none ↔
        (key ≠ initialSyncSignal ∧ ∃ m, env.cache key = CacheResult.err m)) ∧
      (∀ c key n, (processItem env c key).2.2 = none →
        processNextItem env c key n =
          ((processItem env c key).1, (processItem env c key).2.1,
            QueueDisposition.forgot, 0)) := by
  refine ⟨fun sn cs cid kc =>
    addEntry_callback_indep env env2 hsha hparse sn cs cid kc, ?_, ?_,
    fun c key => processItem_err_iff env c key,
    fun c key n h => processNextItem_forgot env c key n h⟩
  · intro sn cs cid kc cl hn hb
    rw [addEntry_create_eq env sn cid cs kc cl hn hb]
    simp [get_store_self]
  · intro sn cs cid kc cl prev hp hown hsh hb
    rw [addEntry_update_eq env sn cid cs kc cl prev hp hown hsh hb]
    simp [get_store_self]

/-- Claim C8: an add-or-update pass iterates only the secret's current
data map: a record owned by that secret whose id no longer appears in
the data keeps its binding untouched and receives no callback or
conflict log — the stale record persists. -/
theorem stale_record_persists (env : Env) (sn cid : String) (cs : ClusterStore)
    (data : List (String × List Nat)) (r : RemoteCluster)
    (hmem : cid ∉ data.map Prod.fst) (hr : cs.get cid = some r)
    (hown : r.secretName = sn) :
    ((addMemberCluster env cs sn data).1).get cid = some r ∧
      ∀ e ∈ (addMemberCluster env cs sn data).2, Event.clusterOf e ≠ cid := by
  refine ⟨?_, ?_⟩
  · rw [addMemberCluster_get_not_mem env sn cid cs data hmem]
    exact hr
  · intro e he heq
    exact hmem (heq ▸ addMemberCluster_events_mem env sn cs data e he)

/-- Claim C9: starting from the empty registry, after every operation —
add-or-update pass, removal pass, `processItem`, or any worker run —
every record's stored fingerprint is the digest of exactly the bytes its
client handle was built from. -/
theorem fingerprint_always_fresh (env : Env) (c : Controller)
    (keys : List String) (h : WellFingerprinted env c.cs) :
    WellFingerprinted env newController.cs ∧
      (∀ sn cs data, WellFingerprinted env cs →
        WellFingerprinted env (addMemberCluster env cs sn data).1) ∧
      (∀ sn cs, WellFingerprinted env cs →
        WellFingerprinted env (deleteMemberCluster env sn cs).1) ∧
      (∀ key, WellFingerprinted env ((processItem env c key).1).cs) ∧
      WellFingerprinted env (processKeys env c keys).cs := by
  refine ⟨?_, fun sn cs data hw => addMemberCluster_wf env sn cs data hw,
    fun sn cs hw => deleteMemberCluster_wf env sn cs hw,
    fun key => processItem_wf env c key h, processKeys_wf env c keys h⟩
  intro p hp
  simp [newController] at hp

/-- Claim C10: empty credential bytes are rejected by the client builder,
so the entry is skipped — no registry write, no add or update callback —
while the rest of the secret is still processed and a present key still
reports success to the queue. -/
theorem empty_bytes_entry_skipped (env : Env) (sn cid : String)
    (cs : ClusterStore) (rest : List (String × List Nat)) (c : Controller)
    (key : String) (data : List (String × List Nat))
    (hc : env.cache key = CacheResult.present data) :
    BuildClientsFromConfig env [] = Except.error "kubeconfig is empty" ∧
      (addEntry env sn cs cid []).1 = cs ∧
      (∀ e ∈ (addEntry env sn cs cid []).2, e = Event.conflict cid) ∧
      (addMemberCluster env cs sn ((cid, []) :: rest)).1 =
        (addMemberCluster env cs sn rest).1 ∧
      (addMemberCluster env cs sn ((cid, []) :: rest)).2 =
        (addEntry env sn cs cid []).2 ++ (addMemberCluster env cs sn rest).2 ∧
      (processItem env c key).2.2 = none := by
  have hbe : BuildClientsFromConfig env [] = Except.error "kubeconfig is empty" := by
    simp [BuildClientsFromConfig]
  have hskip : (addEntry env sn cs cid []).1 = cs ∧
      ∀ e ∈ (addEntry env sn cs cid []).2, e = Event.conflict cid := by
    rcases addEntry_cases env sn cid cs [] with
      ⟨prev, _, _, he⟩ | he | ⟨cl, hb, _, he⟩ | ⟨cl, prev, hb, _, _, _, he⟩
    · simp [he]
    · simp [he]
    · rw [hbe] at hb
      cases hb
    · rw [hbe] at hb
      cases hb
  refine ⟨hbe, hskip.1, hskip.2, ?_, ?_, ?_⟩
  · simp only [addMemberCluster, hskip.1]
  · simp only [addMemberCluster, hskip.1]
  · by_cases hk : key = initialSyncSignal
    · simp [processItem, hk]
    · simp [processItem, hk, hc]

/-! ### Concrete instances for the witnesses -/

/-- A concrete environment: digest is the byte sum, every non-empty
kubeconfig parses, the update and remove callbacks fail. -/
def wEnv : Env :=
  { sha := fun l => l.sum
    parse := fun _ => true
    addErr := fun _ _ => none
    updateErr := fun _ _ => some "update callback failed"
    removeErr := fun _ => some "remove callback failed"
    cache := fun k =>
      if k = "ns/bad" then CacheResult.err "boom"
      else if k = "ns/creds-1" then
        CacheResult.present [("east", [1]), ("west", [2])]
      else CacheResult.absent }

/-- The same collaborators with different callback error results. -/
def wEnv2 : Env :=
  { wEnv with
    addErr := fun _ _ => some "add callback failed"
    updateErr := fun _ _ => none
    removeErr := fun _ => none }

/-- A concrete registry: `east` owned by `ns/creds-1`, `zed` by
`ns/creds-2`. -/
def wStore : ClusterStore :=
  [("east", ⟨"ns/creds-1", ⟨[1]⟩, 1⟩), ("zed", ⟨"ns/creds-2", ⟨[3]⟩, 3⟩)]

/-! ### Witnesses -/

theorem conflict_rejected_without_mutation_witness :
    ((addMemberCluster wEnv wStore "ns/creds-2" [("east", [9])]).1).get "east" =
        some ⟨"ns/creds-1", ⟨[1]⟩, 1⟩ ∧
      (∀ cl, Event.add "east" cl ∉
          (addMemberCluster wEnv wStore "ns/creds-2" [("east", [9])]).2 ∧
        Event.update "east" cl ∉
          (addMemberCluster wEnv wStore "ns/creds-2" [("east", [9])]).2) ∧
      Event.conflict "east" ∈
        (addMemberCluster wEnv wStore "ns/creds-2" [("east", [9])]).2 ∧
      (addMemberCluster wEnv wStore "ns/creds-2" [("east", [9])]).1 =
        (addMemberCluster wEnv wStore "ns/creds-2" ([] ++ [])).1 ∧
      (addMemberCluster wEnv wStore "ns/creds-2" [("east", [9])]).2 =
        (addMemberCluster wEnv wStore "ns/creds-2" []).2 ++ Event.conflict "east" ::
          (addMemberCluster wEnv (addMemberCluster wEnv wStore "ns/creds-2" []).1
            "ns/creds-2" []).2 ∧
      (addMemberCluster wEnv wStore "ns/creds-2" ([] ++ [])).2 =
        (addMemberCluster wEnv wStore "ns/creds-2" []).2 ++
          (addMemberCluster wEnv (addMemberCluster wEnv wStore "ns/creds-2" []).1
            "ns/creds-2" []).2 :=
  conflict_rejected_without_mutation wEnv wStore "ns/creds-1" "ns/creds-2" "east"
    [9] ⟨"ns/creds-1", ⟨[1]⟩, 1⟩ [] [] (by decide) (by decide) (by decide)

theorem hasSynced_sentinel_ordering_witness :
    (∀ c k, k ≠ initialSyncSignal →
      ((processItem wEnv c k).1).initialSync = c.initialSync) ∧
      (∀ c, ((processItem wEnv c initialSyncSignal).1).initialSync = true) ∧
      (∀ p q, ["ns/creds-1", "ns/zzz"] = p ++ q →
        HasSynced (processKeys wEnv newController p) = false) ∧
      HasSynced (processKeys wEnv newController
        (["ns/creds-1", "ns/zzz"] ++ initialSyncSignal :: ["ns/creds-1"])) = true ∧
      (∀ c more, HasSynced c = true → HasSynced (processKeys wEnv c more) = true) :=
  hasSynced_sentinel_ordering wEnv newController ["ns/creds-1", "ns/zzz"]
    ["ns/creds-1"] (by decide) (by decide)

theorem unchanged_secret_idempotent_witness :
    addEntry wEnv "ns/creds-1" wStore "east" [1] = (wStore, []) ∧
      (addMemberCluster wEnv
        (addMemberCluster wEnv wStore "ns/creds-1" [("east", [1]), ("west", [2])]).1
        "ns/creds-1" [("east", [1]), ("west", [2])]).1 =
        (addMemberCluster wEnv wStore "ns/creds-1" [("east", [1]), ("west", [2])]).1 ∧
      ∀ e ∈ (addMemberCluster wEnv
        (addMemberCluster wEnv wStore "ns/creds-1" [("east", [1]), ("west", [2])]).1
        "ns/creds-1" [("east", [1]), ("west", [2])]).2,
        ∃ x, e = Event.conflict x :=
  unchanged_secret_idempotent wEnv "ns/creds-1" wStore
    [("east", [1]), ("west", [2])] "east" [1] ⟨"ns/creds-1", ⟨[1]⟩, 1⟩
    (by decide) (by decide) (by decide) (by decide)

theorem always_failing_key_retry_bound_witness :
    (∀ c n, n < maxRetries →
      processNextItem wEnv c "ns/bad" n =
        (c, [], QueueDisposition.requeued, n + 1)) ∧
      (∀ c, processNextItem wEnv c "ns/bad" maxRetries =
        (c, [], QueueDisposition.gaveUp, 0)) ∧
      failAttempts 0 = maxRetries + 1 ∧ maxRetries + 1 = 6 :=
  always_failing_key_retry_bound wEnv "ns/bad" "boom" (by decide) (by decide)

theorem absent_secret_removal_scan_witness :
    (deleteMemberCluster wEnv "ns/creds-1" wStore).2 =
        (wStore.filter (fun p => decide (p.2.secretName = "ns/creds-1"))).map
          (fun p => Event.remove p.1) ∧
      (deleteMemberCluster wEnv "ns/creds-1" wStore).1 =
        wStore.filter (fun p => decide (¬ p.2.secretName = "ns/creds-1")) ∧
      (∀ x r, wStore.get x = some r → r.secretName ≠ "ns/creds-1" →
        ((deleteMemberCluster wEnv "ns/creds-1" wStore).1).get x = some r) ∧
      processItem wEnv newController "ns/gone" =
        ({ newController with
            cs := (deleteMemberCluster wEnv "ns/gone" newController.cs).1 },
          (deleteMemberCluster wEnv "ns/gone" newController.cs).2, none) :=
  absent_secret_removal_scan wEnv "ns/creds-1" wStore newController "ns/gone"
    (by decide) (by decide)

theorem add_update_distinction_witness :
    (wStore.get "north" = none →
      addEntry wEnv "ns/creds-1" wStore "north" [9] =
        (wStore.store "north" ⟨"ns/creds-1", ⟨[9]⟩, wEnv.sha [9]⟩,
          [Event.add "north" ⟨[9]⟩])) ∧
      (∀ prev, wStore.get "north" = some prev → prev.secretName = "ns/creds-1" →
        wEnv.sha [9] ≠ prev.kubeConfigSha →
        addEntry wEnv "ns/creds-1" wStore "north" [9] =
          (wStore.store "north" ⟨"ns/creds-1", ⟨[9]⟩, wEnv.sha [9]⟩,
            [Event.update "north" ⟨[9]⟩])) ∧
      (∀ data r cl2, wStore.get "north" = some r →
        Event.add "north" cl2 ∉ (addMemberCluster wEnv wStore "ns/creds-1" data).2) :=
  add_update_distinction wEnv "ns/creds-1" "north" wStore [9] ⟨[9]⟩ rfl

theorem callback_error_swallowed_witness :
    (∀ sn cs cid kc, addEntry wEnv2 sn cs cid kc = addEntry wEnv sn cs cid kc) ∧
      (∀ sn cs cid kc cl, cs.get cid = none →
        BuildClientsFromConfig wEnv kc = Except.ok cl →
        ((addEntry wEnv sn cs cid kc).1).get cid = some ⟨sn, cl, wEnv.sha kc⟩ ∧
          (addEntry wEnv sn cs cid kc).2 = [Event.add cid cl]) ∧
      (∀ sn cs cid kc cl prev, cs.get cid = some prev → prev.secretName = sn →
        wEnv.sha kc ≠ prev.kubeConfigSha →
        BuildClientsFromConfig wEnv kc = Except.ok cl →
        ((addEntry wEnv sn cs cid kc).1).get cid = some ⟨sn, cl, wEnv.sha kc⟩ ∧
          (addEntry wEnv sn cs cid kc).2 = [Event.update cid cl]) ∧
      (∀ c key, (processItem wEnv c key).2.2 ≠ none ↔
        (key ≠ initialSyncSignal ∧ ∃ m, wEnv.cache key = CacheResult.err m)) ∧
      (∀ c key n, (processItem wEnv c key).2.2 = none →
        processNextItem wEnv c key n =
          ((processItem wEnv c key).1, (processItem wEnv c key).2.1,
            QueueDisposition.forgot, 0)) :=
  callback_error_swallowed wEnv wEnv2 rfl rfl

theorem stale_record_persists_witness :
    ((addMemberCluster wEnv wStore "ns/creds-1" [("west", [2])]).1).get "east" =
        some ⟨"ns/creds-1", ⟨[1]⟩, 1⟩ ∧
      ∀ e ∈ (addMemberCluster wEnv wStore "ns/creds-1" [("west", [2])]).2,
        Event.clusterOf e ≠ "east" :=
  stale_record_persists wEnv "ns/creds-1" "east" wStore [("west", [2])]
    ⟨"ns/creds-1", ⟨[1]⟩, 1⟩ (by decide) (by decide) (by decide)

theorem fingerprint_always_fresh_witness :
    WellFingerprinted wEnv newController.cs ∧
      (∀ sn cs data, WellFingerprinted wEnv cs →
        WellFingerprinted wEnv (addMemberCluster wEnv cs sn data).1) ∧
      (∀ sn cs, WellFingerprinted wEnv cs →
        WellFingerprinted wEnv (deleteMemberCluster wEnv sn cs).1) ∧
      (∀ key, WellFingerprinted wEnv ((processItem wEnv newController key).1).cs) ∧
      WellFingerprinted wEnv
        (processKeys wEnv newController ["ns/creds-1", "INIT", "ns/gone"]).cs :=
  fingerprint_always_fresh wEnv newController ["ns/creds-1", "INIT", "ns/gone"]
    (by intro p hp; simp [newController] at hp)

theorem empty_bytes_entry_skipped_witness :
    BuildClientsFromConfig wEnv [] = Except.error "kubeconfig is empty" ∧
      (addEntry wEnv "ns/creds-1" wStore "empty" []).1 = wStore ∧
      (∀ e ∈ (addEntry wEnv "ns/creds-1" wStore "empty" []).2,
        e = Event.conflict "empty") ∧
      (addMemberCluster wEnv wStore "ns/creds-1" (("empty", []) :: [("west", [2])])).1 =
        (addMemberCluster wEnv wStore "ns/creds-1" [("west", [2])]).1 ∧
      (addMemberCluster wEnv wStore "ns/creds-1" (("empty", []) :: [("west", [2])])).2 =
        (addEntry wEnv "ns/creds-1" wStore "empty" []).2 ++
          (addMemberCluster wEnv wStore "ns/creds-1" [("west", [2])]).2 ∧
      (processItem wEnv newController "ns/creds-1").2.2 = none :=
  empty_bytes_entry_skipped wEnv "ns/creds-1" "empty" wStore [("west", [2])]
    newController "ns/creds-1" [("east", [1]), ("west", [2])] (by decide)

end SecretController
